import Mathlib

/-!
Shallow embedding of `persistence.ipynb` (scrapy-xpath repository).

The notebook loads saved HTML pages, selects a table by positional index,
iterates its `tr` rows, extracts text fields by relative xpath, and persists
the records as JSON, CSV and SQLite rows.  We embed each notebook cell's loop
as a Lean function over an abstract view of a `tr` row: the lists of text
nodes matched by the three relative xpath expressions the notebook uses
(`td/b/text()`, `td/a/text()`, `td/text()`).

Python semantics embedded here:
  * `selector_list.extract()[0]` raises `IndexError` on an empty list; we
    model a raising expression as `List.head?` combined into an `Option`
    result for the whole loop (an uncaught exception aborts the cell).
  * `selector_list.extract_first()` returns `None` on an empty list; we model
    it as `List.head?` with the `Option` kept as a value (SQL NULL).
  * a Python `dict` is an association list with insert-or-update semantics
    (first occurrence of the key keeps its position, value overwritten;
    new keys appended at the end).
  * `str.strip()` removes leading and trailing Python whitespace.
-/

namespace ScrapyXpath

/-- Abstract view of one `<tr>` row of the parsed table: the text nodes the
notebook's three relative xpath expressions match, in document order. -/
structure Tr where
  /-- texts matched by `td/b/text()` (medal or rank cell) -/
  tdBTexts : List String
  /-- texts matched by `td/a/text()` (athlete link text) -/
  tdATexts : List String
  /-- texts matched by `td/text()` (bare cell text) -/
  tdTexts : List String
deriving DecidableEq, Repr

/-- `tr.xpath('td/b/text()').extract()[0]` and
`tr.xpath('td/a/text()').extract()[0]` as used by cells 4, 7 and 11:
both indexings raise `IndexError` when the node is absent, so the row's
record exists only when both lists are nonempty. -/
def rowRecord (tr : Tr) : Option (String × String) := do
  let medal ← tr.tdBTexts.head?
  let athlete ← tr.tdATexts.head?
  pure (medal, athlete)

/-- The record sequence an uncaught-exception loop produces: all rows in
document order, `none` when any row raises (the Python cell aborts). -/
def extractRecords : List Tr → Option (List (String × String))
  | [] => some []
  | tr :: rest =>
    match rowRecord tr, extractRecords rest with
    | some p, some ps => some (p :: ps)
    | _, _ => none

/-- Python whitespace for `str.strip()`. -/
def pyIsSpace (c : Char) : Bool :=
  c = ' ' || c = '\t' || c = '\n' || c = '\r' || c = '\x0b' || c = '\x0c'

/-- `str.strip()`: drop leading and trailing whitespace. -/
def pyStrip (s : String) : String :=
  String.mk (((s.data.dropWhile pyIsSpace).reverse.dropWhile pyIsSpace).reverse)

/-- Python `dict` assignment `d[k] = v`: overwrite the value at an existing
key in place, otherwise append the new pair at the end. -/
def dictInsert : List (String × String) → String → String → List (String × String)
  | [], k, v => [(k, v)]
  | (k', v') :: rest, k, v =>
    if k' = k then (k, v) :: rest else (k', v') :: dictInsert rest k v

/-- Python `dict` lookup `d[k]`: the stored value at the first matching key. -/
def dictLookup (k : String) : List (String × String) → Option String
  | [] => none
  | (k', v) :: rest => if k' = k then some v else dictLookup k rest

/-- Cell 4 loop body: `scrapped_data[medal] = athlete` per row, aborting the
cell on a missing field (no try/except in cell 4). -/
def cell4Loop (d : List (String × String)) : List Tr → Option (List (String × String))
  | [] => some d
  | tr :: rest =>
    match rowRecord tr with
    | some (medal, athlete) => cell4Loop (dictInsert d medal athlete) rest
    | none => none

/-- Cell 4: `scrapped_data = {}` then the row loop; this dictionary is what
cell 5 passes to `json.dump`. -/
def scrappedData (trs : List Tr) : Option (List (String × String)) :=
  cell4Loop [] trs

/-- Cell 7: configured CSV header `column_names = ["Medal", "Athlete"]`. -/
def columnNames : List String := ["Medal", "Athlete"]

/-- Cell 7 loop body: `rows.append([medal, athlete])` per row, aborting the
cell on a missing field. -/
def cell7Loop (acc : List (List String)) : List Tr → Option (List (List String))
  | [] => some acc
  | tr :: rest =>
    match rowRecord tr with
    | some (medal, athlete) => cell7Loop (acc ++ [[medal, athlete]]) rest
    | none => none

/-- Cell 7: `rows = []` then the row loop. -/
def cell7Rows (trs : List Tr) : Option (List (List String)) :=
  cell7Loop [] trs

/-- Cell 8: `writer.writerow(column_names)` followed by
`writer.writerows(rows)` — the CSV file as a list of rows. -/
def cell8Csv (rows : List (List String)) : List (List String) :=
  columnNames :: rows

/-- The athlete of the last row in document order whose first `td/b` text is
the given label, if any. -/
def lastAthleteFor (l : String) : List Tr → Option String
  | [] => none
  | tr :: rest =>
    match lastAthleteFor l rest with
    | some a => some a
    | none => if tr.tdBTexts.head? = some l then tr.tdATexts.head? else none

/-! ### Association-list (Python dict) lemmas -/

theorem dictLookup_insert_self (d : List (String × String)) (k v : String) :
    dictLookup k (dictInsert d k v) = some v := by
  induction d with
  | nil => simp [dictInsert, dictLookup]
  | cons p rest ih =>
    obtain ⟨k', v'⟩ := p
    by_cases h : k' = k
    · simp [dictInsert, h, dictLookup]
    · simp [dictInsert, h, dictLookup, ih]

theorem dictLookup_insert_other (d : List (String × String)) (k k' v : String)
    (h : k ≠ k') : dictLookup k' (dictInsert d k v) = dictLookup k' d := by
  induction d with
  | nil => simp [dictInsert, dictLookup, h]
  | cons p rest ih =>
    obtain ⟨k₀, v₀⟩ := p
    by_cases h₀ : k₀ = k
    · subst h₀
      simp [dictInsert, dictLookup, h, Ne.symm h]
    · simp [dictInsert, h₀, dictLookup, ih]

theorem mem_keys_dictInsert (d : List (String × String)) (k v l : String) :
    l ∈ (dictInsert d k v).map Prod.fst ↔ l = k ∨ l ∈ d.map Prod.fst := by
  induction d with
  | nil => simp [dictInsert]
  | cons p rest ih =>
    obtain ⟨k₀, v₀⟩ := p
    by_cases h₀ : k₀ = k
    · subst h₀
      simp [dictInsert]
    · simp only [dictInsert, h₀, if_false, List.map_cons, List.mem_cons, ih]
      tauto

theorem nodup_keys_dictInsert (d : List (String × String)) (k v : String)
    (h : (d.map Prod.fst).Nodup) : ((dictInsert d k v).map Prod.fst).Nodup := by
  induction d with
  | nil => simp [dictInsert]
  | cons p rest ih =>
    obtain ⟨k₀, v₀⟩ := p
    simp only [List.map_cons, List.nodup_cons] at h
    by_cases h₀ : k₀ = k
    · subst h₀
      simpa [dictInsert] using h
    · rw [dictInsert, if_neg h₀]
      simp only [List.map_cons, List.nodup_cons]
      refine ⟨?_, ih h.2⟩
      rw [mem_keys_dictInsert]
      rintro (rfl | hmem)
      · exact h₀ rfl
      · exact h.1 hmem

/-! ### SQLite model: the `results` table (cells 10, 11, 13)

The `results` table is declared `id integer primary key, medal TEXT,
athlete TEXT`; in SQLite an `integer primary key` column is the rowid, and
an insert that omits it is assigned `max(rowid) + 1` (1 on an empty table).
A connection sees its own uncommitted writes; `commit` makes them durable;
discarding a connection without commit drops the pending writes; a fresh
connection sees exactly the committed state. -/

/-- One stored row of the `results` table. -/
structure ResultsRow where
  id : Nat
  medal : String
  athlete : String
deriving DecidableEq, Repr

/-- The largest rowid present in the table (0 when empty). -/
def maxId (t : List ResultsRow) : Nat :=
  t.foldl (fun m r => max m r.id) 0

/-- Rowid SQLite assigns to the next inserted row: `max(rowid) + 1`. -/
def nextId (t : List ResultsRow) : Nat :=
  maxId t + 1

/-- An open SQLite connection: the durable state it connected to plus its
own view including uncommitted writes. -/
structure SqliteConn where
  committed : List ResultsRow
  current : List ResultsRow
deriving DecidableEq, Repr

/-- `sqlite3.connect(...)`: a fresh connection sees the durable state. -/
def connect (db : List ResultsRow) : SqliteConn :=
  ⟨db, db⟩

/-- `cursor.execute('INSERT INTO results(medal, athlete) VALUES(?, ?)', (medal, athlete))`:
append a row with the next rowid to the connection's view. -/
def insertResults (c : SqliteConn) (medal athlete : String) : SqliteConn :=
  { c with current := c.current ++ [⟨nextId c.current, medal, athlete⟩] }

/-- `connection.commit()`: make the connection's view durable. -/
def commitConn (c : SqliteConn) : SqliteConn :=
  { c with committed := c.current }

/-- Discarding the connection: only the committed state survives. -/
def closeConn (c : SqliteConn) : List ResultsRow :=
  c.committed

/-- `select * from results` on a connection (full scan, rowid order). -/
def selectAll (c : SqliteConn) : List ResultsRow :=
  c.current

/-- Cell 11 loop body: per row, extract both fields (uncaught `IndexError`
aborts the cell), `cursor.execute(insert)`, then `connection.commit()`. -/
def cell11Loop (c : SqliteConn) : List Tr → Option SqliteConn
  | [] => some c
  | tr :: rest =>
    match rowRecord tr with
    | some (medal, athlete) => cell11Loop (commitConn (insertResults c medal athlete)) rest
    | none => none

/-- Cell 11: reconnect to the database file and run the insert loop. -/
def cell11Insert (db : List ResultsRow) (trs : List Tr) : Option SqliteConn :=
  cell11Loop (connect db) trs

/-- Cell 13: a fresh connection to the database file, then
`select * from results` fetching all rows. -/
def cell13ReadBack (db : List ResultsRow) : List ResultsRow :=
  selectAll (connect db)

/-- The rows `⟨k, p₁⟩, ⟨k+1, p₂⟩, …` a run of inserts starting at rowid `k`
produces from a record list. -/
def rowsFrom (k : Nat) : List (String × String) → List ResultsRow
  | [] => []
  | p :: ps => ⟨k, p.1, p.2⟩ :: rowsFrom (k + 1) ps

theorem maxId_append_one (t : List ResultsRow) (r : ResultsRow) :
    maxId (t ++ [r]) = max (maxId t) r.id := by
  simp [maxId, List.foldl_append]

theorem rowsFrom_cons (k : Nat) (p : String × String) (ps : List (String × String)) :
    rowsFrom k (p :: ps) = ⟨k, p.1, p.2⟩ :: rowsFrom (k + 1) ps := rfl

theorem map_id_rowsFrom (k : Nat) (ps : List (String × String)) :
    (rowsFrom k ps).map (fun r => r.id) = List.range' k ps.length := by
  induction ps generalizing k with
  | nil => rfl
  | cons p ps ih => simp [rowsFrom, List.range', ih]

theorem map_pairs_rowsFrom (k : Nat) (ps : List (String × String)) :
    (rowsFrom k ps).map (fun r => (r.medal, r.athlete)) = ps := by
  induction ps generalizing k with
  | nil => rfl
  | cons p ps ih => simp [rowsFrom, ih]

/-- Invariant run of the cell 11 loop: starting from a connection whose view
is committed, a successful extraction appends the records with consecutive
rowids, committing after every insert. -/
theorem cell11Loop_spec (trs : List Tr) (recs : List (String × String))
    (h : extractRecords trs = some recs) (c : SqliteConn)
    (hc : c.committed = c.current) :
    ∃ c', cell11Loop c trs = some c' ∧ c'.committed = c'.current ∧
      c'.current = c.current ++ rowsFrom (nextId c.current) recs := by
  induction trs generalizing recs c with
  | nil =>
    simp only [extractRecords, Option.some.injEq] at h
    subst h
    exact ⟨c, rfl, hc, by simp [rowsFrom]⟩
  | cons tr rest ih =>
    simp only [extractRecords] at h
    cases hrec : rowRecord tr with
    | none => simp [hrec] at h
    | some p =>
      cases hrest : extractRecords rest with
      | none => simp [hrec, hrest] at h
      | some ps =>
        simp only [hrec, hrest, Option.some.injEq] at h
        subst h
        obtain ⟨medal, athlete⟩ := p
        set c₁ : SqliteConn := commitConn (insertResults c medal athlete) with hc₁
        have hc₁committed : c₁.committed = c₁.current := rfl
        have hcur : c₁.current = c.current ++ [⟨nextId c.current, medal, athlete⟩] := rfl
        obtain ⟨c', hrun, hcomm, hfin⟩ := ih ps hrest c₁ hc₁committed
        refine ⟨c', ?_, hcomm, ?_⟩
        · simpa [cell11Loop, hrec] using hrun
        · rw [hfin, hcur]
          have hnext : nextId (c.current ++ [⟨nextId c.current, medal, athlete⟩]) =
              nextId c.current + 1 := by
            simp [nextId, maxId_append_one, Nat.max_eq_right (Nat.le_succ (maxId c.current))]
          rw [hnext, List.append_assoc]
          rfl

/-- A failed extraction aborts the cell 11 loop whatever the connection. -/
theorem cell11Loop_none (trs : List Tr) (h : extractRecords trs = none)
    (c : SqliteConn) : cell11Loop c trs = none := by
  induction trs generalizing c with
  | nil => simp [extractRecords] at h
  | cons tr rest ih =>
    simp only [extractRecords] at h
    cases hrec : rowRecord tr with
    | none => simp [cell11Loop, hrec]
    | some p =>
      cases hrest : extractRecords rest with
      | some ps => simp [hrec, hrest] at h
      | none =>
        obtain ⟨medal, athlete⟩ := p
        simp [cell11Loop, hrec, ih hrest]

/-! ### Cell 15: multi-file batch with `try/except IndexError` -/

/-- Cell 15 row extraction: `extract()[0].strip()` for `td/b/text()` (rank)
then for `td/a/text()` (athlete); either indexing raises `IndexError`,
which the `except IndexError: continue` turns into skipping the row. -/
def rowRecord15 (tr : Tr) : Option (String × String) := do
  let rank ← tr.tdBTexts.head?
  let athlete ← tr.tdATexts.head?
  pure (pyStrip rank, pyStrip athlete)

/-- Cell 15 per-file loop: rows whose extraction raises are skipped and the
loop continues; successful rows are inserted in document order. -/
def cell15Loop (acc : List (String × String)) : List Tr → List (String × String)
  | [] => acc
  | tr :: rest =>
    match rowRecord15 tr with
    | some p => cell15Loop (acc ++ [p]) rest
    | none => cell15Loop acc rest

/-- The `(rank, athlete)` pairs cell 15 inserts for one file's table rows. -/
def cell15FileRecords (trs : List Tr) : List (String × String) :=
  cell15Loop [] trs

theorem cell15Loop_eq (acc : List (String × String)) (trs : List Tr) :
    cell15Loop acc trs = acc ++ trs.filterMap rowRecord15 := by
  induction trs generalizing acc with
  | nil => simp [cell15Loop]
  | cons tr rest ih =>
    cases hrec : rowRecord15 tr with
    | none => simp [cell15Loop, hrec, ih]
    | some p => simp [cell15Loop, hrec, ih]

theorem cell15FileRecords_eq (trs : List Tr) :
    cell15FileRecords trs = trs.filterMap rowRecord15 := by
  simp [cell15FileRecords, cell15Loop_eq]

/-! ### Cells 17/19: heights loop with `extract_first()` -/

/-- Cell 19 row extraction: `extract_first()` for `td/text()` (rank),
`td/a/text()` (name) and `td/b/text()` (height).  `extract_first` returns
`None` when the node is absent — it never raises, so the
`except AttributeError` clause is unreachable and every row is processed. -/
def rowRecord19 (tr : Tr) : Option String × Option String × Option String :=
  (tr.tdTexts.head?, tr.tdATexts.head?, tr.tdBTexts.head?)

/-- Cell 19 loop: every row yields one `INSERT INTO heights` with the three
(possibly NULL) extracted values, committed per insert. -/
def cell19Records (trs : List Tr) : List (Option String × Option String × Option String) :=
  trs.map rowRecord19

/-! ### SQL statements of cells 10, 11, 14, 15, 18, 19 as data -/

/-- SQL column types used by the notebook. -/
inductive SqlType
  | integer
  | text
deriving DecidableEq, Repr

/-- One column of a `CREATE TABLE` statement. -/
structure ColumnDef where
  colName : String
  colType : SqlType
  isPrimaryKey : Bool
deriving DecidableEq, Repr

/-- A `CREATE TABLE` statement. -/
structure CreateTableStmt where
  ifNotExists : Bool
  tableName : String
  columns : List ColumnDef
deriving DecidableEq, Repr

/-- A value position of an `INSERT` statement: a bound parameter `?` or a
literal interpolated into the SQL text. -/
inductive SqlValue
  | param
  | literal (s : String)
deriving DecidableEq, Repr

/-- An `INSERT INTO … (…) VALUES (…)` statement. -/
structure InsertStmt where
  tableName : String
  insertColumns : List String
  values : List SqlValue
deriving DecidableEq, Repr

/-- Cell 10: `CREATE TABLE IF NOT EXISTS results (id integer primary key,
medal TEXT, athlete TEXT)`. -/
def resultsCreate : CreateTableStmt :=
  ⟨true, "results",
    [⟨"id", .integer, true⟩, ⟨"medal", .text, false⟩, ⟨"athlete", .text, false⟩]⟩

/-- Cell 14: `CREATE TABLE IF NOT EXISTS high_jump_results (rank TEXT,
athlete TEXT)`. -/
def highJumpResultsCreate : CreateTableStmt :=
  ⟨true, "high_jump_results", [⟨"rank", .text, false⟩, ⟨"athlete", .text, false⟩]⟩

/-- Cell 18: `CREATE TABLE IF NOT EXISTS heights (id integer primary key,
rank TEXT, athlete TEXT, height TEXT)`. -/
def heightsCreate : CreateTableStmt :=
  ⟨true, "heights",
    [⟨"id", .integer, true⟩, ⟨"rank", .text, false⟩, ⟨"athlete", .text, false⟩,
      ⟨"height", .text, false⟩]⟩

/-- Cell 11: `INSERT INTO results(medal, athlete) VALUES(?, ?)`. -/
def resultsInsertStmt : InsertStmt :=
  ⟨"results", ["medal", "athlete"], [.param, .param]⟩

/-- Cell 15: `INSERT INTO high_jump_results (rank, athlete) VALUES (?, ?)`. -/
def highJumpInsertStmt : InsertStmt :=
  ⟨"high_jump_results", ["rank", "athlete"], [.param, .param]⟩

/-- Cell 19: `INSERT INTO heights (rank, athlete, height) VALUES (?, ?, ?)`. -/
def heightsInsertStmt : InsertStmt :=
  ⟨"heights", ["rank", "athlete", "height"], [.param, .param, .param]⟩

/-- All `CREATE TABLE` statements the notebook executes. -/
def allCreates : List CreateTableStmt :=
  [resultsCreate, highJumpResultsCreate, heightsCreate]

/-- All `INSERT` statements the notebook executes. -/
def allInserts : List InsertStmt :=
  [resultsInsertStmt, highJumpInsertStmt, heightsInsertStmt]

/-- An auto-incrementing identity column: in SQLite, a column declared
`integer primary key` is an alias of the auto-assigned rowid. -/
def hasIdentityColumn (t : CreateTableStmt) : Bool :=
  t.columns.any fun c => c.colType == SqlType.integer && c.isPrimaryKey

/-- All values bound as parameters, none interpolated into the SQL text. -/
def isParameterized (i : InsertStmt) : Bool :=
  i.values.all fun v => v == SqlValue.param

/-! ### Commit traces (cells 11 and 15) -/

/-- An observable database event: an insert of a record while processing a
given file, or a commit. -/
inductive DbEvent
  | ins (fileIdx : Nat) (rec : String × String)
  | com
deriving DecidableEq, Repr

/-- Files with uncommitted inserts after one event: an insert adds its file,
a commit clears all pending inserts. -/
def stepPending (pend : List Nat) : DbEvent → List Nat
  | .ins f _ => if f ∈ pend then pend else pend ++ [f]
  | .com => []

/-- Whether, at every point of the event sequence, inserts from at most one
file are pending in the open transaction. -/
def pendingWithin1 (pend : List Nat) : List DbEvent → Bool
  | [] => true
  | e :: rest =>
    let pend2 := stepPending pend e
    decide (pend2.length ≤ 1) && pendingWithin1 pend2 rest

/-- The event trace of cell 11: one insert followed immediately by one
commit per successfully extracted row (an uncaught `IndexError` stops the
loop; cell 11 processes the single 1992 file, index 0). -/
def cell11Trace : List Tr → List DbEvent
  | [] => []
  | tr :: rest =>
    match rowRecord tr with
    | some p => .ins 0 p :: .com :: cell11Trace rest
    | none => []

/-- The insert events of cell 15: per file in directory order, one insert
per surviving row, with no commit in between. -/
def cell15Inserts (files : List (List Tr)) : List DbEvent :=
  (files.enum).flatMap fun fi => (cell15FileRecords fi.2).map (DbEvent.ins fi.1)

/-- The full event trace of cell 15: all inserts of all files, then the one
`conn.commit()` after the file loop. -/
def cell15Trace (files : List (List Tr)) : List DbEvent :=
  cell15Inserts files ++ [DbEvent.com]

/-! ### Cell 4 loop characterisation -/

theorem rowRecord_eq_some (tr : Tr) (m a : String) :
    rowRecord tr = some (m, a) ↔
      tr.tdBTexts.head? = some m ∧ tr.tdATexts.head? = some a := by
  cases hB : tr.tdBTexts.head? <;> cases hA : tr.tdATexts.head? <;>
    simp [rowRecord, hB, hA]

/-- Running the cell 4 loop from any dictionary: lookups are resolved by the
last matching row (falling back to the initial dictionary), key nodup is
preserved, and the key set grows by exactly the labels seen. -/
theorem cell4Loop_spec (trs : List Tr) (d d' : List (String × String))
    (h : cell4Loop d trs = some d') :
    (∀ l, dictLookup l d' =
        match lastAthleteFor l trs with
        | some a => some a
        | none => dictLookup l d) ∧
    ((d.map Prod.fst).Nodup → (d'.map Prod.fst).Nodup) ∧
    (∀ l, l ∈ d'.map Prod.fst ↔
        l ∈ d.map Prod.fst ∨ ∃ tr ∈ trs, tr.tdBTexts.head? = some l) := by
  induction trs generalizing d with
  | nil =>
    simp only [cell4Loop, Option.some.injEq] at h
    subst h
    exact ⟨fun l => by simp [lastAthleteFor], fun hn => hn, fun l => by simp⟩
  | cons tr rest ih =>
    simp only [cell4Loop] at h
    cases hrec : rowRecord tr with
    | none => simp [hrec] at h
    | some p =>
      obtain ⟨m, a⟩ := p
      rw [hrec] at h
      obtain ⟨hB, hA⟩ := (rowRecord_eq_some tr m a).mp hrec
      obtain ⟨ih1, ih2, ih3⟩ := ih (dictInsert d m a) h
      refine ⟨?_, fun hn => ih2 (nodup_keys_dictInsert d m a hn), ?_⟩
      · intro l
        rw [ih1 l]
        cases hlast : lastAthleteFor l rest with
        | some a' => simp [lastAthleteFor, hlast]
        | none =>
          simp only [lastAthleteFor, hlast, hB, hA]
          by_cases hml : m = l
          · subst hml
            simp [dictLookup_insert_self]
          · rw [dictLookup_insert_other d m l a hml]
            simp [Option.some.injEq, hml]
      · intro l
        rw [ih3 l, mem_keys_dictInsert, List.exists_mem_cons_iff, hB]
        simp only [Option.some.injEq]
        constructor
        · rintro ((rfl | hd) | hex)
          · exact Or.inr (Or.inl rfl)
          · exact Or.inl hd
          · exact Or.inr (Or.inr hex)
        · rintro (hd | rfl | hex)
          · exact Or.inl (Or.inr hd)
          · exact Or.inl (Or.inl rfl)
          · exact Or.inr hex

/-! ### Cell 7 loop characterisation -/

theorem cell7Loop_eq (acc : List (List String)) (trs : List Tr) :
    cell7Loop acc trs =
      (extractRecords trs).map fun recs => acc ++ recs.map fun p => [p.1, p.2] := by
  induction trs generalizing acc with
  | nil => simp [cell7Loop, extractRecords]
  | cons tr rest ih =>
    cases hrec : rowRecord tr with
    | none => simp [cell7Loop, hrec, extractRecords]
    | some p =>
      obtain ⟨m, a⟩ := p
      cases hrest : extractRecords rest with
      | none => simp [cell7Loop, hrec, extractRecords, hrest, ih]
      | some ps => simp [cell7Loop, hrec, extractRecords, hrest, ih]

/-- The `(medal, athlete)` pairs stored in the `results` table by cell 11,
read back in rowid order. -/
def cell11Pairs (trs : List Tr) : Option (List (String × String)) :=
  (cell11Insert [] trs).map fun c => (selectAll c).map fun r => (r.medal, r.athlete)

/-- The three persisted outputs of the pipeline over one parsed table: the
JSON dictionary (cells 4–5), the CSV rows (cells 7–8) and the database
record sequence (cell 11). -/
def pipelineOutputs (trs : List Tr) :
    Option (List (String × String)) × Option (List (List String)) ×
      Option (List (String × String)) :=
  (scrappedData trs, (cell7Rows trs).map cell8Csv, cell11Pairs trs)

/-! ### Concrete rows used as witnesses -/

/-- A well-formed medal row. -/
def trGold : Tr := ⟨["Gold"], ["Steve Smith"], ["1"]⟩

/-- A second well-formed medal row. -/
def trSilver : Tr := ⟨["Silver"], ["Tim Forsyth"], ["2"]⟩

/-- A row repeating the Gold label with another athlete. -/
def trGold2 : Tr := ⟨["Gold"], ["Takahiro Kimino"], ["3"]⟩

/-- A row none of whose expected child nodes exist (e.g. a header row). -/
def trNoFields : Tr := ⟨[], [], []⟩

/-- Two single-row files for the cell 15 batch. -/
def demoFiles : List (List Tr) := [[trGold], [trSilver]]

/-! ## Claims -/

/-- C1 (amended): in the cell 15 multi-file batch loop, a row whose expected
field is absent (its extraction raises `IndexError`) is excluded from the
insert sequence and the remaining rows are still processed; in the cell 19
heights loop `extract_first` returns `None` instead of raising, so a row
with absent fields is NOT excluded — it is inserted, with NULL in place of
each missing field. -/
theorem claim_C1 (pre post : List Tr) (tr : Tr) (h : rowRecord15 tr = none) :
    cell15FileRecords (pre ++ tr :: post) = cell15FileRecords (pre ++ post) ∧
    cell19Records (pre ++ tr :: post) =
      cell19Records pre ++ rowRecord19 tr :: cell19Records post := by
  constructor
  · simp [cell15FileRecords_eq, h]
  · simp [cell19Records]

/-- C1 witness: with a field-less row between two good rows, the batch loop
drops it while the heights loop keeps it as a record of three `none`s. -/
theorem claim_C1_witness :
    cell15FileRecords ([trGold] ++ trNoFields :: [trSilver]) =
      cell15FileRecords ([trGold] ++ [trSilver]) ∧
    cell19Records ([trGold] ++ trNoFields :: [trSilver]) =
      cell19Records [trGold] ++ rowRecord19 trNoFields :: cell19Records [trSilver] :=
  claim_C1 [trGold] [trSilver] trNoFields rfl

/-- C1 counterexample: a row with every expected child node absent is not
excluded by the cell 19 loop — one record (all fields NULL) is emitted for
it, contradicting the claim that such rows produce no record. -/
theorem claim_C1_cex :
    trNoFields.tdATexts.head? = none ∧ trNoFields.tdBTexts.head? = none ∧
    cell19Records [trNoFields] = [(none, none, none)] :=
  ⟨rfl, rfl, rfl⟩

/-- C2 (amended): all three tables are created with IF NOT EXISTS semantics
and appended to only via fully parameterized INSERTs, and every non-key
column is TEXT; `results` and `heights` carry an `integer primary key`
identity column, but `high_jump_results` is created without any identity
column. -/
theorem claim_C2 :
    (∀ t ∈ allCreates, t.ifNotExists = true) ∧
    (∀ i ∈ allInserts, isParameterized i = true) ∧
    (∀ t ∈ allCreates, ∀ c ∈ t.columns, c.isPrimaryKey = true ∨ c.colType = SqlType.text) ∧
    hasIdentityColumn resultsCreate = true ∧
    hasIdentityColumn heightsCreate = true ∧
    hasIdentityColumn highJumpResultsCreate = false := by
  decide

/-- C2 counterexample: `high_jump_results` is one of the persistence tables
yet its CREATE statement declares no auto-incrementing identity column. -/
theorem claim_C2_cex :
    highJumpResultsCreate ∈ allCreates ∧
    hasIdentityColumn highJumpResultsCreate = false := by
  decide

/-- C3 (amended): the cell 11 loop commits after every insert, so at every
point of its trace at most one file has pending inserts; the cell 15
multi-file batch instead commits exactly once, after all files, so its
inserts from all files share the single transaction open until that final
commit. -/
theorem claim_C3 :
    (∀ trs : List Tr, pendingWithin1 [] (cell11Trace trs) = true) ∧
    (∀ files : List (List Tr),
      cell15Trace files = cell15Inserts files ++ [DbEvent.com] ∧
        DbEvent.com ∉ cell15Inserts files) := by
  constructor
  · intro trs
    induction trs with
    | nil => rfl
    | cons tr rest ih =>
      cases hrec : rowRecord tr with
      | none => simp [cell11Trace, hrec, pendingWithin1]
      | some p => simp [cell11Trace, hrec, pendingWithin1, stepPending, ih]
  · intro files
    refine ⟨rfl, ?_⟩
    simp [cell15Inserts]

/-- C3 counterexample: with two files of one valid row each, the cell 15
trace reaches a point where inserts from two distinct files are pending in
the same uncommitted transaction. -/
theorem claim_C3_cex : pendingWithin1 [] (cell15Trace demoFiles) = false := by
  decide

/-- C4: when the cell 4 medal loop completes, the dictionary passed to
`json.dump` has nodup keys and its key set is exactly the set of medal
labels seen across the rows — one entry per distinct label. -/
theorem claim_C4 (trs : List Tr) (d : List (String × String))
    (h : scrappedData trs = some d) :
    (d.map Prod.fst).Nodup ∧
    ∀ l, l ∈ d.map Prod.fst ↔ ∃ tr ∈ trs, tr.tdBTexts.head? = some l := by
  obtain ⟨-, h2, h3⟩ := cell4Loop_spec trs [] d h
  refine ⟨h2 (by simp), fun l => ?_⟩
  rw [h3 l]
  simp

/-- C4 witness: three rows with two distinct labels yield a two-entry
dictionary. -/
theorem claim_C4_witness :
    (([("Gold", "Takahiro Kimino"), ("Silver", "Tim Forsyth")].map Prod.fst).Nodup ∧
      ∀ l, l ∈ [("Gold", "Takahiro Kimino"), ("Silver", "Tim Forsyth")].map Prod.fst ↔
        ∃ tr ∈ [trGold, trSilver, trGold2], tr.tdBTexts.head? = some l) :=
  claim_C4 [trGold, trSilver, trGold2]
    [("Gold", "Takahiro Kimino"), ("Silver", "Tim Forsyth")] (by rfl)

/-- C5: the CSV file is the configured header `["Medal", "Athlete"]`
followed by exactly one row per extracted record, in order. -/
theorem claim_C5 (trs : List Tr) (recs : List (String × String))
    (h : extractRecords trs = some recs) :
    ∃ rows, cell7Rows trs = some rows ∧
      cell8Csv rows = columnNames :: recs.map (fun p => [p.1, p.2]) ∧
      (cell8Csv rows).length = recs.length + 1 := by
  refine ⟨recs.map fun p => [p.1, p.2], ?_, by simp [cell8Csv], by simp [cell8Csv]⟩
  rw [cell7Rows, cell7Loop_eq, h]
  simp

/-- C5 witness: two rows produce a header plus two data rows. -/
theorem claim_C5_witness :
    ∃ rows, cell7Rows [trGold, trSilver] = some rows ∧
      cell8Csv rows = columnNames ::
        [("Gold", "Steve Smith"), ("Silver", "Tim Forsyth")].map (fun p => [p.1, p.2]) ∧
      (cell8Csv rows).length =
        [("Gold", "Steve Smith"), ("Silver", "Tim Forsyth")].length + 1 :=
  claim_C5 [trGold, trSilver] [("Gold", "Steve Smith"), ("Silver", "Tim Forsyth")] (by rfl)

/-- C6: inserting n records into a fresh `results` table with per-insert
commits, discarding the connection, and reading back over a fresh
connection returns all inserted rows, with identity values 1 through n in
insertion order. -/
theorem claim_C6 (trs : List Tr) (recs : List (String × String))
    (h : extractRecords trs = some recs) :
    ∃ c, cell11Insert [] trs = some c ∧
      cell13ReadBack (closeConn c) = rowsFrom 1 recs ∧
      (rowsFrom 1 recs).map (fun r => r.id) = List.range' 1 recs.length ∧
      (rowsFrom 1 recs).map (fun r => (r.medal, r.athlete)) = recs := by
  obtain ⟨c, hrun, hcomm, hcur⟩ := cell11Loop_spec trs recs h (connect []) rfl
  have hc : c.current = rowsFrom 1 recs := by
    simpa [connect, nextId, maxId] using hcur
  exact ⟨c, hrun, by simp [cell13ReadBack, selectAll, connect, closeConn, hcomm, hc],
    map_id_rowsFrom 1 recs, map_pairs_rowsFrom 1 recs⟩

/-- C6 witness: two records read back with ids 1 and 2. -/
theorem claim_C6_witness :
    ∃ c, cell11Insert [] [trGold, trSilver] = some c ∧
      cell13ReadBack (closeConn c) =
        rowsFrom 1 [("Gold", "Steve Smith"), ("Silver", "Tim Forsyth")] ∧
      (rowsFrom 1 [("Gold", "Steve Smith"), ("Silver", "Tim Forsyth")]).map (fun r => r.id) =
        List.range' 1 [("Gold", "Steve Smith"), ("Silver", "Tim Forsyth")].length ∧
      (rowsFrom 1 [("Gold", "Steve Smith"), ("Silver", "Tim Forsyth")]).map
          (fun r => (r.medal, r.athlete)) =
        [("Gold", "Steve Smith"), ("Silver", "Tim Forsyth")] :=
  claim_C6 [trGold, trSilver] [("Gold", "Steve Smith"), ("Silver", "Tim Forsyth")] (by rfl)

/-- C7: running the cell 11 extraction-and-insert pass twice against the
same append-only `results` table doubles every record: each `(medal,
athlete)` pair occurs twice as often as in one extraction. -/
theorem claim_C7 (trs : List Tr) (recs : List (String × String))
    (h : extractRecords trs = some recs) :
    ∃ c₁ c₂, cell11Insert [] trs = some c₁ ∧
      cell11Insert (closeConn c₁) trs = some c₂ ∧
      ∀ p : String × String,
        ((closeConn c₂).map fun r => (r.medal, r.athlete)).count p = 2 * recs.count p := by
  obtain ⟨c₁, hrun₁, hcomm₁, hcur₁⟩ := cell11Loop_spec trs recs h (connect []) rfl
  have hc₁ : c₁.current = rowsFrom 1 recs := by
    simpa [connect, nextId, maxId] using hcur₁
  have hclose₁ : closeConn c₁ = rowsFrom 1 recs := by
    rw [closeConn, hcomm₁, hc₁]
  obtain ⟨c₂, hrun₂, hcomm₂, hcur₂⟩ :=
    cell11Loop_spec trs recs h (connect (closeConn c₁)) rfl
  refine ⟨c₁, c₂, hrun₁, hrun₂, fun p => ?_⟩
  have hclose₂ : closeConn c₂ =
      rowsFrom 1 recs ++ rowsFrom (nextId (rowsFrom 1 recs)) recs := by
    rw [closeConn, hcomm₂, hcur₂]
    simp [connect, hclose₁]
  rw [hclose₂, List.map_append, map_pairs_rowsFrom, map_pairs_rowsFrom,
    List.count_append, two_mul]

/-- C7 witness: one record, present twice after the second run. -/
theorem claim_C7_witness :
    ∃ c₁ c₂, cell11Insert [] [trGold] = some c₁ ∧
      cell11Insert (closeConn c₁) [trGold] = some c₂ ∧
      ∀ p : String × String,
        ((closeConn c₂).map fun r => (r.medal, r.athlete)).count p =
          2 * [("Gold", "Steve Smith")].count p :=
  claim_C7 [trGold] [("Gold", "Steve Smith")] (by rfl)

/-- C8: when two or more rows repeat a medal label, the dictionary cell 5
serialises holds, at that label, the athlete of the last such row in
document order. -/
theorem claim_C8 (trs : List Tr) (d : List (String × String)) (l : String)
    (h : scrappedData trs = some d) :
    dictLookup l d = lastAthleteFor l trs := by
  obtain ⟨h1, -, -⟩ := cell4Loop_spec trs [] d h
  rw [h1 l]
  cases hlast : lastAthleteFor l trs <;> simp [dictLookup]

/-- C8 witness: with Gold appearing in rows 1 and 3, the dictionary maps
Gold to the third row's athlete. -/
theorem claim_C8_witness :
    dictLookup "Gold" [("Gold", "Takahiro Kimino"), ("Silver", "Tim Forsyth")] =
      lastAthleteFor "Gold" [trGold, trSilver, trGold2] :=
  claim_C8 [trGold, trSilver, trGold2]
    [("Gold", "Takahiro Kimino"), ("Silver", "Tim Forsyth")] "Gold" (by rfl)

/-- C9: records are emitted in document order: the CSV rows are the record
sequence of the table rows in order, the `results` table stores that same
sequence, and the cell 15 batch inserts the per-file surviving rows as an
order-preserving `filterMap` over the parsed rows. -/
theorem claim_C9 (trs : List Tr) :
    cell7Rows trs = (extractRecords trs).map (fun recs => recs.map fun p => [p.1, p.2]) ∧
    cell11Pairs trs = extractRecords trs ∧
    cell15FileRecords trs = trs.filterMap rowRecord15 := by
  refine ⟨?_, ?_, cell15FileRecords_eq trs⟩
  · rw [cell7Rows, cell7Loop_eq]
    simp
  · cases hex : extractRecords trs with
    | none => simp [cell11Pairs, cell11Insert, cell11Loop_none trs hex]
    | some recs =>
      obtain ⟨c, hrun, -, hcur⟩ := cell11Loop_spec trs recs hex (connect []) rfl
      have hc : c.current = rowsFrom 1 recs := by
        simpa [connect, nextId, maxId] using hcur
      simp [cell11Pairs, cell11Insert, hrun, selectAll, hc, map_pairs_rowsFrom]

/-- C10: the pipeline is deterministic — equal parsed inputs give equal
JSON dictionaries, CSV files and database record sequences. -/
theorem claim_C10 (trs₁ trs₂ : List Tr) (h : trs₁ = trs₂) :
    pipelineOutputs trs₁ = pipelineOutputs trs₂ := by
  rw [h]

/-- C10 witness: the pipeline applied twice to the same concrete input. -/
theorem claim_C10_witness : pipelineOutputs [trGold, trSilver] = pipelineOutputs [trGold, trSilver] :=
  claim_C10 [trGold, trSilver] [trGold, trSilver] rfl

end ScrapyXpath
